import Mathlib

/-!
Verification of the feature engineering and temporal-consistency engine of the
Explainable-AI-Trading-Copilot repository.

The development shallowly embeds the three source files the claims are about:

  * `src/processing/news_processor.py` — the historical news aggregator
    (`process_news_file`, `get_sentiment_score`);
  * `src/processing/feature_builder.py` — the historical backfill path
    (`create_features`, `read_news_metrics_from_dynamodb`);
  * `src/lambdas/daily-feature-engineer.py` — the incremental path
    (`process_current_day_news`, `read_historical_news_metrics`,
    `calculate_single_day_features`, `lambda_handler`).

Conventions of the embedding:

  * machine floats are modelled as rationals (`ℚ`); the two features that take a
    square root (`volatility_20d`, the numpy standard deviation behind
    `sentiment_std_24h`) live in `ℝ` via `Real.sqrt`;
  * a pandas NaN is modelled as `none : Option ℚ`;
  * dates are modelled as integers counting days, so `timedelta(days=k)` is
    subtraction of `k`; the calendar functions `dt.dayofweek` and `dt.month` are
    abstracted as parameters `dow mon : ℤ → ℤ` (both code paths apply the same
    functions to the same dates, and no claim depends on their values);
  * prices are positive per the data model, so the zero-denominator branches of
    `pct_change` (which pandas maps to inf or NaN) are modelled as missing;
  * the external DynamoDB table is modelled as a fetch function
    `ℤ → FetchResult`, covering the found / not-found / raised cases of
    `table.get_item`;
  * the external Comprehend scorer is modelled through an outcome function; for
    the aggregators the per-title score is abstracted as `f : String → ℚ`.
-/

namespace TradingCopilot

/-! ## Generic list helpers mirroring the pandas and numpy primitives -/

/-- Mean of a list of rationals: `sum / len`.  With the rational convention
`0 / 0 = 0` this also covers numpy's empty-mean edge case, which the sources
guard with explicit branches anyway. -/
def qmean (l : List ℚ) : ℚ := l.sum / l.length

/-- Population variance `np.var`: mean of squared deviations from the mean. -/
def popVar (l : List ℚ) : ℚ := (l.map (fun x => (x - qmean l) ^ 2)).sum / l.length

/-- Numpy `np.std`: square root of the population variance. -/
noncomputable def np_std (l : List ℚ) : ℝ := Real.sqrt (popVar l)

/-- Sample variance (`ddof = 1`), the square of the pandas rolling `std`. -/
def sampleVar (l : List ℚ) : ℚ := (l.map (fun x => (x - qmean l) ^ 2)).sum / (l.length - 1)

/-- First index of the trailing window of width `w` ending at index `i`. -/
def winLo (w i : ℕ) : ℕ := i + 1 - w

/-- The trailing window of width `w` of `xs` ending at index `i` (both ends
included), exactly the set of rows a pandas trailing rolling window of width
`w` sees at row `i`. -/
def windowSlice (w : ℕ) (xs : List α) (d : α) (i : ℕ) : List α :=
  (List.range (i + 1 - winLo w i)).map (fun j => xs.getD (winLo w i + j) d)

/-- `Series.rolling(w, min_periods=1).mean()` over a series without NaNs. -/
def rollingMean (w : ℕ) (xs : List ℚ) : List ℚ :=
  (List.range xs.length).map (fun i => qmean (windowSlice w xs 0 i))

/-- `Series.rolling(w, min_periods=1).std()` over an Option series, returning
the sample variance; pandas emits NaN unless the window holds at least two
valid observations (one observation has zero degrees of freedom under
`ddof = 1`).  The real-valued feature is the square root of this. -/
def rollingSampleVar (w : ℕ) (xs : List (Option ℚ)) : List (Option ℚ) :=
  (List.range xs.length).map (fun i =>
    let valid := (windowSlice w xs none i).filterMap id
    if 2 ≤ valid.length then some (sampleVar valid) else none)

/-- `Series.pct_change(k)`: NaN for the first `k` rows, otherwise the relative
change against the value `k` rows earlier.  A zero denominator (impossible for
the positive prices of the data model) is modelled as missing. -/
def pctChange (k : ℕ) (xs : List ℚ) : List (Option ℚ) :=
  (List.range xs.length).map (fun i =>
    if k ≤ i then
      if xs.getD (i - k) 0 = 0 then none
      else some ((xs.getD i 0 - xs.getD (i - k) 0) / xs.getD (i - k) 0)
    else none)

/-- `Series.shift(1)` on an Option series: NaN in row 0, else the previous row. -/
def shiftOne (xs : List (Option ℚ)) : List (Option ℚ) :=
  (List.range xs.length).map (fun i => if i = 0 then none else xs.getD (i - 1) none)

/-! ## News data model -/

/-- One raw news article as the aggregators see it: the `lang` and `title`
fields of the JSON object, each possibly absent.  JSON titles are modelled as
strings, so Python truthiness of a title is emptiness of the string. -/
structure Article where
  lang : Option String
  title : Option String
deriving DecidableEq, Repr

/-- One element of the raw article collection: either a JSON object (`dict`)
or some non-dict JSON value, on which Python attribute access `.get` raises. -/
inductive Entry where
  | art (a : Article)
  | nonDict
deriving DecidableEq, Repr

/-- Whether an entry is a JSON object. -/
def Entry.isArt : Entry → Bool
  | .art _ => true
  | .nonDict => false

/-- Top-level shape of a raw news JSON payload: an object (whose missing
`articles` key is collapsed into the empty list, matching
`data.get("articles", [])`), a bare list, or any other JSON value. -/
inductive Payload where
  | dict (articles : List Entry)
  | list (entries : List Entry)
  | other
deriving DecidableEq, Repr

/-- Sentiment label returned by Comprehend. -/
inductive Sentiment where
  | positive
  | negative
  | neutral
  | mixed
deriving DecidableEq, Repr

/-- Outcome of one `comprehend.detect_sentiment` call: a label, a botocore
`ClientError`, or any other exception. -/
inductive ComprehendOutcome where
  | ok (s : Sentiment)
  | clientError
  | otherError
deriving DecidableEq, Repr

/-- `get_sentiment_score` of `news_processor.py` (the copy in
`daily-feature-engineer.py` is line-for-line identical): non-string or empty
text scores 0, the text is truncated to 4900 characters before the call,
POSITIVE maps to 1, NEGATIVE to -1, anything else (NEUTRAL, MIXED, and both
error branches) to 0. -/
def get_sentiment_score (text : Option String) (call : String → ComprehendOutcome) : ℚ :=
  match text with
  | none => 0
  | some t =>
    if t = "" then 0
    else
      match call (t.take 4900) with
      | .ok .positive => 1
      | .ok .negative => -1
      | .ok .neutral => 0
      | .ok .mixed => 0
      | .clientError => 0
      | .otherError => 0

/-- The per-day aggregation state both aggregators build: the list of scores of
the scored articles (in article order), the total raw article count, and the
strictly-positive / strictly-negative score counts. -/
structure DayAgg where
  scores : List ℚ
  total : ℕ
  pos : ℕ
  neg : ℕ
deriving DecidableEq, Repr

/-- The article loop of `process_news_file` (news_processor.py lines 59-69):
scores every entry flagged `lang == "English"` whose title is truthy, but
raises `AttributeError` (modelled as `Except.error`) on a non-dict entry, since
the loop accesses `article.get` without a type check. -/
def scoreLoopStrict (f : String → ℚ) : List Entry → Except Unit (List ℚ × ℕ × ℕ)
  | [] => .ok ([], 0, 0)
  | .nonDict :: _ => .error ()
  | .art a :: rest =>
    match scoreLoopStrict f rest with
    | .error e => .error e
    | .ok (s, p, n) =>
      if a.lang = some "English" then
        match a.title with
        | none => .ok (s, p, n)
        | some t =>
          if t = "" then .ok (s, p, n)
          else
            let sc := f t
            .ok (sc :: s, (if 0 < sc then p + 1 else p), (if sc < 0 then n + 1 else n))
      else .ok (s, p, n)

/-- The article loop of `process_current_day_news` (daily-feature-engineer.py
lines 89-96): same filter, but non-dict entries are skipped by the
`isinstance(article, dict)` guard instead of raising. -/
def scoreLoopLenient (f : String → ℚ) : List Entry → List ℚ × ℕ × ℕ
  | [] => ([], 0, 0)
  | .nonDict :: rest => scoreLoopLenient f rest
  | .art a :: rest =>
    if a.lang = some "English" then
      match a.title with
      | none => scoreLoopLenient f rest
      | some t =>
        if t = "" then scoreLoopLenient f rest
        else
          (f t :: (scoreLoopLenient f rest).1,
            (if 0 < f t then (scoreLoopLenient f rest).2.1 + 1 else (scoreLoopLenient f rest).2.1),
            (if f t < 0 then (scoreLoopLenient f rest).2.2 + 1 else (scoreLoopLenient f rest).2.2))
    else scoreLoopLenient f rest

/-- The titles that survive the aggregation filter, in article order: titles of
dict entries flagged `lang == "English"` whose title is present and non-empty.
This is the specification-side description of the filter, compared against the
source-side loops in the C6 theorem. -/
def english_titles (es : List Entry) : List String :=
  es.filterMap (fun e =>
    match e with
    | .art a =>
      if a.lang = some "English" then
        match a.title with
        | some t => if t = "" then none else some t
        | none => none
      else none
    | .nonDict => none)

/-- Numpy mean with the explicit guard of both call sites:
`np.mean(scores) if scores else 0.0`. -/
def avgOf (a : DayAgg) : ℚ := if a.scores = [] then 0 else qmean a.scores

/-- Numpy standard deviation with the explicit guard of both call sites:
`np.std(scores) if len(scores) >= 2 else 0.0`. -/
noncomputable def stdOf (a : DayAgg) : ℝ := if 2 ≤ a.scores.length then np_std a.scores else 0

/-- The metric computation of `process_news_file` on the article list of a dict
payload: scores via the strict loop, total count `len(articles)` taken before
any filtering. -/
def histDayAgg (f : String → ℚ) (es : List Entry) : Except Unit DayAgg :=
  match scoreLoopStrict f es with
  | .error e => .error e
  | .ok (s, p, n) => .ok ⟨s, es.length, p, n⟩

/-- `process_news_file` from reading the parsed JSON to the computed metrics
(news_processor.py lines 55-75): only a dict payload reaches the loop — a bare
list or any other JSON value raises `AttributeError` at `data.get` — and an
empty article list returns early with nothing written (`.ok none`). -/
def process_news_file_metrics (f : String → ℚ) (p : Payload) : Except Unit (Option DayAgg) :=
  match p with
  | .dict es =>
    if es = [] then .ok none
    else
      match histDayAgg f es with
      | .error e => .error e
      | .ok a => .ok (some a)
  | .list _ => .error ()
  | .other => .error ()

/-- The aggregation of `process_current_day_news` (daily-feature-engineer.py
lines 65-109) at the rational level: `none` stands for a missing S3 object or
invalid JSON (both default), a dict payload uses its `articles` value, a bare
list is accepted as the article collection, any other shape defaults.  An empty
collection keeps the zero defaults. -/
def currentDayAgg (f : String → ℚ) (p : Option Payload) : DayAgg :=
  match p with
  | none => ⟨[], 0, 0, 0⟩
  | some (.dict es) =>
    if es = [] then ⟨[], 0, 0, 0⟩
    else
      ⟨(scoreLoopLenient f es).1, es.length,
        (scoreLoopLenient f es).2.1, (scoreLoopLenient f es).2.2⟩
  | some (.list es) =>
    if es = [] then ⟨[], 0, 0, 0⟩
    else
      ⟨(scoreLoopLenient f es).1, es.length,
        (scoreLoopLenient f es).2.1, (scoreLoopLenient f es).2.2⟩
  | some .other => ⟨[], 0, 0, 0⟩

/-! ## The news history store -/

/-- Rounding to four decimal places, the effect of persisting a value through
the format string `f"{x:.4f}"` and parsing it back with `float`. -/
def round4 (q : ℚ) : ℚ := (round (q * 10000) : ℚ) / 10000

/-- The same four-decimal rounding for the real-valued standard deviation. -/
noncomputable def round4R (x : ℝ) : ℚ := (round (x * 10000) : ℚ) / 10000

/-- The DynamoDB item written by `process_news_file` (news_processor.py lines
79-87), with the two formatted strings modelled by the decimal values they
denote. -/
structure StoredItem where
  avgStr : ℚ
  count : ℕ
  posCount : ℕ
  negCount : ℕ
  stdStr : ℚ
deriving DecidableEq, Repr

/-- The item `process_news_file` persists for a computed day aggregate:
`avg_sentiment_24h` and `sentiment_std_24h` go through `f"{x:.4f}"`, the three
counts are stored as integers. -/
noncomputable def stored_item_of (a : DayAgg) : StoredItem :=
  ⟨round4 (avgOf a), a.total, a.pos, a.neg, round4R (stdOf a)⟩

/-- Result of one `table.get_item` call for a (ticker, date) key: the item, no
item, or a raised exception. -/
inductive FetchResult where
  | found (it : StoredItem)
  | notFound
  | err
deriving DecidableEq, Repr

/-- The five news metrics as `read_news_metrics_from_dynamodb` returns them. -/
structure NewsMetrics where
  avg_sentiment_24h : ℚ
  news_count_24h : ℕ
  positive_count_24h : ℕ
  negative_count_24h : ℕ
  sentiment_std_24h : ℚ
deriving DecidableEq, Repr

/-- `read_news_metrics_from_dynamodb` of feature_builder.py: parse the found
item, and return the all-zero defaults both when no item exists and when the
fetch raises. -/
def read_news_metrics_from_dynamodb (r : FetchResult) : NewsMetrics :=
  match r with
  | .found it => ⟨it.avgStr, it.count, it.posCount, it.negCount, it.stdStr⟩
  | .notFound => ⟨0, 0, 0, 0, 0⟩
  | .err => ⟨0, 0, 0, 0, 0⟩

/-- `read_historical_news_metrics` of daily-feature-engineer.py: only the
average sentiment is read, with 0.0 for the not-found and raised cases. -/
def read_historical_news_metrics (r : FetchResult) : ℚ :=
  match r with
  | .found it => it.avgStr
  | .notFound => 0
  | .err => 0

/-! ## Price bars and the per-feature series -/

/-- One daily price bar of the sorted per-ticker frame: its date (in days),
close, and volume.  Open, high, and low are never read by the feature code. -/
structure Bar where
  date : ℤ
  close : ℚ
  volume : ℚ
deriving DecidableEq, Repr

instance : Inhabited Bar := ⟨⟨0, 0, 0⟩⟩

/-- The `close` column. -/
def closes (bars : List Bar) : List ℚ := bars.map (·.close)

/-- The `volume` column. -/
def volumes (bars : List Bar) : List ℚ := bars.map (·.volume)

/-- `df["ret_1d"] = df["close"].pct_change(1)`. -/
def ret_1d (bars : List Bar) : List (Option ℚ) := pctChange 1 (closes bars)

/-- `df["mom_5d"] = df["close"].pct_change(5)`. -/
def mom_5d (bars : List Bar) : List (Option ℚ) := pctChange 5 (closes bars)

/-- The gain series `np.where(delta > 0, delta, 0.0)` over `delta = close.diff()`;
the NaN of `diff` in row 0 fails the comparison, giving 0. -/
def gains (xs : List ℚ) : List ℚ :=
  (List.range xs.length).map (fun i =>
    if i = 0 then 0
    else if 0 < xs.getD i 0 - xs.getD (i - 1) 0 then xs.getD i 0 - xs.getD (i - 1) 0 else 0)

/-- The loss series `np.where(delta < 0, -delta, 0.0)`. -/
def losses (xs : List ℚ) : List ℚ :=
  (List.range xs.length).map (fun i =>
    if i = 0 then 0
    else if xs.getD i 0 - xs.getD (i - 1) 0 < 0 then xs.getD (i - 1) 0 - xs.getD i 0 else 0)

/-- `avg_gain = pd.Series(gain).rolling(14, min_periods=1).mean()`. -/
def avg_gain (xs : List ℚ) : List ℚ := rollingMean 14 (gains xs)

/-- `avg_loss = pd.Series(loss).rolling(14, min_periods=1).mean().replace(0, 1e-9)`. -/
def avg_loss (xs : List ℚ) : List ℚ :=
  (rollingMean 14 (losses xs)).map (fun v => if v = 0 then 1 / 1000000000 else v)

/-- `df["rsi_14"] = 100 - (100 / (1 + avg_gain / avg_loss))`; total, since the
loss floor keeps the denominators nonzero. -/
def rsi_14 (xs : List ℚ) : List ℚ :=
  (List.range xs.length).map (fun i =>
    100 - 100 / (1 + (avg_gain xs).getD i 0 / (avg_loss xs).getD i 0))

/-- `df["abn_volume"] = df["volume"] / df["volume"].rolling(30, min_periods=1).mean()`;
a zero window mean forces the current volume to be zero as well (volumes are
non-negative), and pandas `0 / 0` is NaN, modelled as missing. -/
def abn_volume (bars : List Bar) : List (Option ℚ) :=
  (List.range bars.length).map (fun i =>
    let m := qmean (windowSlice 30 (volumes bars) 0 i)
    if m = 0 then none else some ((volumes bars).getD i 0 / m))

/-- `df["ret_lag_1d"] = df["ret_1d"].shift(1)`. -/
def ret_lag_1d (bars : List Bar) : List (Option ℚ) := shiftOne (ret_1d bars)

/-- `df["volatility_20d"] = df["ret_1d"].rolling(20, min_periods=1).std()` at
the variance level; the feature is the square root of each defined entry. -/
def vol20_var (bars : List Bar) : List (Option ℚ) := rollingSampleVar 20 (ret_1d bars)

/-- `df["ma_50d"] = df["close"].rolling(50, min_periods=1).mean()`. -/
def ma_50d (bars : List Bar) : List ℚ := rollingMean 50 (closes bars)

/-- `df["ma_200d"] = df["close"].rolling(200, min_periods=1).mean()`. -/
def ma_200d (bars : List Bar) : List ℚ := rollingMean 200 (closes bars)

/-- `df["ma_trend_signal"] = (df["ma_50d"] > df["ma_200d"]).astype(int)`. -/
def ma_trend_signal (bars : List Bar) : List ℤ :=
  (List.range bars.length).map (fun i =>
    if (ma_200d bars).getD i 0 < (ma_50d bars).getD i 0 then 1 else 0)

/-- The product series `df["ret_1d"] * df["abn_volume"]`, NaN-propagating. -/
def rxv_mul (bars : List Bar) : List (Option ℚ) :=
  (List.range bars.length).map (fun i =>
    match (ret_1d bars).getD i none, (abn_volume bars).getD i none with
    | some a, some b => some (a * b)
    | _, _ => none)

/-- `return_x_volume` in `create_features`: the guard
`if 'abn_volume' in df.columns` is always true at this point, so the product
series is always taken (the `else 0.0` branch is dead). -/
def rxv_hist (bars : List Bar) : List (Option ℚ) := rxv_mul bars

/-- `return_x_volume` in `calculate_single_day_features`: the extra
`df['abn_volume'].notna().any()` guard falls back to a constant 0.0 column when
the whole `abn_volume` series is NaN. -/
def rxv_inc (bars : List Bar) : List (Option ℚ) :=
  if (abn_volume bars).any (fun o => o.isSome) then rxv_mul bars
  else (List.range bars.length).map (fun _ => some 0)

/-- `df['date'].max()` over the frame. -/
def max_date (bars : List Bar) : ℤ := ((bars.map Bar.date).max?).getD 0

/-- First index of `bars` whose date is `D` — the row the boolean mask
`df['date'] == target` selects (unique in a strictly sorted frame). -/
def find_idx_date (bars : List Bar) (D : ℤ) : Option ℕ :=
  match bars with
  | [] => none
  | b :: bs => if b.date = D then some 0 else (find_idx_date bs D).map (· + 1)

/-! ## The two feature paths -/

/-- The complete feature vector of one (ticker, date), the 18 model features
of the published schema.  Features that can be NaN mid-pipeline are total here:
the historical path only emits rows that survive its `dropna`, the incremental
path fills remaining NaNs with `fillna(0)`. -/
structure FeatureRow where
  ret_1d : ℚ
  mom_5d : ℚ
  rsi_14 : ℚ
  abn_volume : ℚ
  ret_lag_1d : ℚ
  volatility_20d : ℝ
  ma_50d : ℚ
  ma_200d : ℚ
  ma_trend_signal : ℤ
  day_of_week : ℤ
  month_of_year : ℤ
  return_x_volume : ℚ
  avg_sentiment_24h : ℚ
  news_count_24h : ℕ
  positive_count_24h : ℕ
  negative_count_24h : ℕ
  sentiment_std_24h : ℝ
  avg_sentiment_3d : ℚ

/-- The per-day sentiment column of `create_features`: every row is enriched
from the store via `read_news_metrics_from_dynamodb` (feature_builder.py lines
84-100). -/
def hist_avg24 (fetch : ℤ → FetchResult) (bars : List Bar) : List ℚ :=
  (List.range bars.length).map (fun i =>
    (read_news_metrics_from_dynamodb (fetch (bars.getD i default).date)).avg_sentiment_24h)

/-- The row of the `create_features` output frame for date `D`
(feature_builder.py lines 49-127): features over the full frame, news metrics
from the store for every date, the rolling 3-day sentiment after enrichment,
the three-year retention filter keyed to the frame's maximal date, and the
`dropna` over the checked feature list — a row with any NaN among them is
dropped, so no row for `D` is produced. -/
noncomputable def create_features_at (dow mon : ℤ → ℤ) (fetch : ℤ → FetchResult)
    (bars : List Bar) (D : ℤ) : Option FeatureRow :=
  match find_idx_date bars D with
  | none => none
  | some i =>
    if max_date bars - 1095 ≤ D then
      match (ret_1d bars).getD i none, (mom_5d bars).getD i none,
            (abn_volume bars).getD i none, (ret_lag_1d bars).getD i none,
            (vol20_var bars).getD i none, (rxv_hist bars).getD i none with
      | some r1, some m5, some ab, some rl, some vv, some rx =>
        let m := read_news_metrics_from_dynamodb (fetch (bars.getD i default).date)
        some {
          ret_1d := r1
          mom_5d := m5
          rsi_14 := (rsi_14 (closes bars)).getD i 0
          abn_volume := ab
          ret_lag_1d := rl
          volatility_20d := Real.sqrt vv
          ma_50d := (ma_50d bars).getD i 0
          ma_200d := (ma_200d bars).getD i 0
          ma_trend_signal := (ma_trend_signal bars).getD i 0
          day_of_week := dow (bars.getD i default).date
          month_of_year := mon (bars.getD i default).date
          return_x_volume := rx
          avg_sentiment_24h := (hist_avg24 fetch bars).getD i 0
          news_count_24h := m.news_count_24h
          positive_count_24h := m.positive_count_24h
          negative_count_24h := m.negative_count_24h
          sentiment_std_24h := (m.sentiment_std_24h : ℝ)
          avg_sentiment_3d := (rollingMean 3 (hist_avg24 fetch bars)).getD i 0 }
      | _, _, _, _, _, _ => none
    else none

/-- The sentiment column of `calculate_single_day_features` after the merge,
the same-day override, and `fillna(0)` (daily-feature-engineer.py lines
140-158): the target date takes the freshly computed average, dates the 5-day
lookback loop fetched take the stored average, and every other date is filled
with 0. -/
def inc_avg24 (fetch : ℤ → FetchResult) (freshAvg : ℚ) (D : ℤ) (bars : List Bar) : List ℚ :=
  (List.range bars.length).map (fun i =>
    let d := (bars.getD i default).date
    if d = D then freshAvg
    else if D - 5 ≤ d ∧ d < D then read_historical_news_metrics (fetch d)
    else 0)

/-- `calculate_single_day_features` (daily-feature-engineer.py lines 125-201):
fresh same-day news metrics via `process_current_day_news`, stored averages for
the 5-day lookback, the same price features over the supplied window, the
rolling 3-day sentiment after the override, selection of the target row (None
when the target date has no bar), attachment of the fresh count / positive /
negative / std metrics, and the final `fillna(0)` imputation. -/
noncomputable def calculate_single_day_features (dow mon : ℤ → ℤ) (f : String → ℚ)
    (fetch : ℤ → FetchResult) (p : Option Payload) (bars : List Bar) (D : ℤ) :
    Option FeatureRow :=
  let fresh := currentDayAgg f p
  let a24 := inc_avg24 fetch (avgOf fresh) D bars
  match find_idx_date bars D with
  | none => none
  | some i =>
    some {
      ret_1d := ((ret_1d bars).getD i none).getD 0
      mom_5d := ((mom_5d bars).getD i none).getD 0
      rsi_14 := (rsi_14 (closes bars)).getD i 0
      abn_volume := ((abn_volume bars).getD i none).getD 0
      ret_lag_1d := ((ret_lag_1d bars).getD i none).getD 0
      volatility_20d :=
        match (vol20_var bars).getD i none with
        | some v => Real.sqrt v
        | none => 0
      ma_50d := (ma_50d bars).getD i 0
      ma_200d := (ma_200d bars).getD i 0
      ma_trend_signal := (ma_trend_signal bars).getD i 0
      day_of_week := dow (bars.getD i default).date
      month_of_year := mon (bars.getD i default).date
      return_x_volume := ((rxv_inc bars).getD i none).getD 0
      avg_sentiment_24h := a24.getD i 0
      news_count_24h := fresh.total
      positive_count_24h := fresh.pos
      negative_count_24h := fresh.neg
      sentiment_std_24h := stdOf fresh
      avg_sentiment_3d := (rollingMean 3 a24).getD i 0 }

/-! ## The lambda handler batch loop -/

/-- One triggering S3 record as the handler sees it after event parsing:
whether the key matches the `stooq/daily` CSV shape, whether the CSV parses,
the extracted ticker and target date, and the parsed price frame. -/
structure S3Record where
  validKey : Bool
  parseOk : Bool
  ticker : String
  targetDate : ℤ
  bars : List Bar
deriving DecidableEq, Repr

/-- Outcome of the handler body for one record: skipped (key mismatch,
`continue` without touching the counters), errored (any raised exception or
fatal check, `error_count += 1`, nothing written), or a written feature row. -/
inductive RecOutcome where
  | skipped
  | errored
  | wrote (row : FeatureRow)

/-- The body of the handler loop for one record (daily-feature-engineer.py
lines 210-257): skip non-matching keys, treat a CSV parse failure as an error,
filter the price frame to dates at most 250 days before the target, fail with
an error when that window is empty, fail with an error when the feature
calculation returns no row, and otherwise write the row. -/
noncomputable def process_record (dow mon : ℤ → ℤ) (f : String → ℚ)
    (fetch : String → ℤ → FetchResult) (payloads : String → ℤ → Option Payload)
    (r : S3Record) : RecOutcome :=
  if ¬ r.validKey then .skipped
  else if ¬ r.parseOk then .errored
  else
    let hist := r.bars.filter (fun b => r.targetDate - 250 ≤ b.date)
    if hist = [] then .errored
    else
      match calculate_single_day_features dow mon f (fetch r.ticker)
          (payloads r.ticker r.targetDate) hist r.targetDate with
      | none => .errored
      | some row => .wrote row

/-- One fold step of the handler: accumulate (success count, error count,
written rows). -/
noncomputable def handler_step (dow mon : ℤ → ℤ) (f : String → ℚ)
    (fetch : String → ℤ → FetchResult) (payloads : String → ℤ → Option Payload)
    (acc : ℕ × ℕ × List FeatureRow) (r : S3Record) : ℕ × ℕ × List FeatureRow :=
  match process_record dow mon f fetch payloads r with
  | .skipped => acc
  | .errored => (acc.1, acc.2.1 + 1, acc.2.2)
  | .wrote row => (acc.1 + 1, acc.2.1, acc.2.2 ++ [row])

/-- `lambda_handler` (daily-feature-engineer.py lines 205-261): process every
record of the batch independently, aggregating a success count, an error
count, and the list of written feature rows. -/
noncomputable def lambda_handler (dow mon : ℤ → ℤ) (f : String → ℚ)
    (fetch : String → ℤ → FetchResult) (payloads : String → ℤ → Option Payload)
    (recs : List S3Record) : ℕ × ℕ × List FeatureRow :=
  recs.foldl (handler_step dow mon f fetch payloads) (0, 0, [])

/-- The HTTP status of the handler response: 200 on an error-free batch, 207
(multi-status) as soon as any record errored. -/
def handler_status (errors : ℕ) : ℕ := if errors = 0 then 200 else 207

/-! ## Evaluation lemmas for the series combinators -/

theorem getD_range_map (g : ℕ → α) (n i : ℕ) (d : α) (h : i < n) :
    ((List.range n).map g).getD i d = g i := by
  rw [List.getD_eq_getElem?_getD, List.getElem?_map, List.getElem?_range h]
  rfl

theorem length_range_map (g : ℕ → α) (n : ℕ) : ((List.range n).map g).length = n := by
  simp

theorem getD_map_lt (fn : α → β) (l : List α) (i : ℕ) (h : i < l.length) (d : β) (d' : α) :
    (l.map fn).getD i d = fn (l.getD i d') := by
  rw [List.getD_eq_getElem?_getD, List.getElem?_map,
    List.getElem?_eq_getElem h, List.getD_eq_getElem?_getD, List.getElem?_eq_getElem h]
  rfl

theorem getD_of_forall_mem {l : List ℚ} {c : ℚ} (h : ∀ x ∈ l, x = c) {i : ℕ}
    (hi : i < l.length) (d : ℚ) : l.getD i d = c := by
  rw [List.getD_eq_getElem?_getD, List.getElem?_eq_getElem hi]
  exact h _ (l.getElem_mem hi)

theorem mem_windowSlice {x : α} {w : ℕ} {xs : List α} {d : α} {i : ℕ}
    (hx : x ∈ windowSlice w xs d i) : ∃ k, k ≤ i ∧ x = xs.getD k d := by
  unfold windowSlice at hx
  obtain ⟨j, hj, rfl⟩ := List.mem_map.mp hx
  obtain hjlt := List.mem_range.mp hj
  exact ⟨winLo w i + j, by unfold winLo at hjlt ⊢; omega, rfl⟩

theorem windowSlice_three (xs : List α) (d : α) (i : ℕ) (h2 : 2 ≤ i) :
    windowSlice 3 xs d i = [xs.getD (i - 2) d, xs.getD (i - 1) d, xs.getD i d] := by
  unfold windowSlice winLo
  have h3 : i + 1 - (i + 1 - 3) = 3 := by omega
  rw [h3, show List.range 3 = [0, 1, 2] from rfl]
  have e0 : i + 1 - 3 + 0 = i - 2 := by omega
  have e1 : i + 1 - 3 + 1 = i - 1 := by omega
  have e2 : i + 1 - 3 + 2 = i := by omega
  simp only [List.map, e0, e1, e2]

theorem qmean_of_zeros {l : List ℚ} (h : ∀ x ∈ l, x = 0) : qmean l = 0 := by
  unfold qmean
  rw [List.sum_eq_zero h, zero_div]

theorem qmean_cons_three (a b c : ℚ) : qmean [a, b, c] = (a + b + c) / 3 := by
  unfold qmean
  simp [add_assoc]

/-! ## The RSI on a constant price series -/

theorem gains_of_const {xs : List ℚ} {c : ℚ} (h : ∀ x ∈ xs, x = c) :
    ∀ y ∈ gains xs, y = 0 := by
  intro y hy
  obtain ⟨j, hj, rfl⟩ := List.mem_map.mp hy
  obtain hjlt := List.mem_range.mp hj
  by_cases hj0 : j = 0
  · simp [hj0]
  · have hcur : xs.getD j 0 = c := getD_of_forall_mem h hjlt 0
    have hprev : xs.getD (j - 1) 0 = c := getD_of_forall_mem h (by omega) 0
    rw [if_neg hj0, hcur, hprev]
    simp

theorem losses_of_const {xs : List ℚ} {c : ℚ} (h : ∀ x ∈ xs, x = c) :
    ∀ y ∈ losses xs, y = 0 := by
  intro y hy
  obtain ⟨j, hj, rfl⟩ := List.mem_map.mp hy
  obtain hjlt := List.mem_range.mp hj
  by_cases hj0 : j = 0
  · simp [hj0]
  · have hcur : xs.getD j 0 = c := getD_of_forall_mem h hjlt 0
    have hprev : xs.getD (j - 1) 0 = c := getD_of_forall_mem h (by omega) 0
    rw [if_neg hj0, hcur, hprev]
    simp

theorem rollingMean_getD_zero {w : ℕ} {xs : List ℚ} (h : ∀ x ∈ xs, x = 0)
    {i : ℕ} (hi : i < xs.length) : (rollingMean w xs).getD i 0 = 0 := by
  unfold rollingMean
  rw [getD_range_map _ _ _ _ hi]
  apply qmean_of_zeros
  intro x hx
  obtain ⟨k, hk, rfl⟩ := mem_windowSlice hx
  by_cases hkl : k < xs.length
  · exact getD_of_forall_mem h hkl 0
  · rw [List.getD_eq_default]
    omega

theorem avg_gain_const {xs : List ℚ} {c : ℚ} (h : ∀ x ∈ xs, x = c) {i : ℕ}
    (hi : i < xs.length) : (avg_gain xs).getD i 0 = 0 := by
  unfold avg_gain
  have hg : (gains xs).length = xs.length := length_range_map _ _
  exact rollingMean_getD_zero (gains_of_const h) (by omega)

theorem avg_loss_const {xs : List ℚ} {c : ℚ} (h : ∀ x ∈ xs, x = c) {i : ℕ}
    (hi : i < xs.length) : (avg_loss xs).getD i 0 = 1 / 1000000000 := by
  unfold avg_loss
  have hl : (losses xs).length = xs.length := length_range_map _ _
  have hlen : (rollingMean 14 (losses xs)).length = xs.length := by
    unfold rollingMean
    rw [length_range_map]
    exact hl
  rw [getD_map_lt _ _ _ (by omega) _ 0]
  rw [rollingMean_getD_zero (losses_of_const h) (by omega)]
  norm_num

/-- C2 counterexample: on the constant price series `[5, 5]` the computed
`rsi_14` of day 1 is 0, not 100 as the claim states — with zero gains and the
loss average floored to `1e-9`, `rs = 0` and `RSI = 100 - 100/(1+0) = 0`. -/
theorem c2_counterexample :
    (rsi_14 [5, 5]).getD 1 0 = 0 ∧ ¬ (rsi_14 [5, 5]).getD 1 0 = 100 := by
  have h : (rsi_14 [5, 5]).getD 1 0 = 0 := by
    norm_num [rsi_14, avg_gain, avg_loss, gains, losses, rollingMean, windowSlice, winLo,
      qmean, List.range_succ, List.getD_cons_succ, List.getD_cons_zero]
  rw [h]
  norm_num

/-- C2 amended: for every price history whose close is constant across all
bars, `rsi_14` equals 0 on every day (not 100); the computation stays total —
the `1e-9` loss floor keeps every denominator nonzero, so no day is NaN and no
division by zero occurs (the series has one rational value per input row). -/
theorem c2_rsi_constant_zero (xs : List ℚ) (c : ℚ) (h : ∀ x ∈ xs, x = c) :
    (rsi_14 xs).length = xs.length ∧
      ∀ i, i < xs.length → (rsi_14 xs).getD i 0 = 0 := by
  constructor
  · exact length_range_map _ _
  · intro i hi
    unfold rsi_14
    rw [getD_range_map _ _ _ _ hi, avg_gain_const h hi, avg_loss_const h hi]
    norm_num

/-- Witness for C2: the constant series `[5, 5, 5]` satisfies the hypothesis
and day 2 computes to 0. -/
theorem c2_rsi_constant_zero_witness :
    (∀ x ∈ [(5 : ℚ), 5, 5], x = 5) ∧ (rsi_14 [5, 5, 5]).getD 2 0 = 0 :=
  ⟨by intro x hx; fin_cases hx <;> rfl,
    (c2_rsi_constant_zero [5, 5, 5] 5 (by intro x hx; fin_cases hx <;> rfl)).2 2
      (by norm_num)⟩

/-! ## Lemmas about the two article-scoring loops -/

theorem scoreLoopStrict_spec {f : String → ℚ} :
    ∀ {es : List Entry} {s : List ℚ} {p n : ℕ},
      scoreLoopStrict f es = .ok (s, p, n) →
        s = (english_titles es).map f ∧
          p = (s.filter (fun x => decide (0 < x))).length ∧
          n = (s.filter (fun x => decide (x < 0))).length := by
  intro es
  induction es with
  | nil =>
    intro s p n h
    simp only [scoreLoopStrict] at h
    injection h with h
    injection h with h1 h2
    injection h2 with h2 h3
    subst h1; subst h2; subst h3
    simp [english_titles]
  | cons e rest ih =>
    intro s p n h
    cases e with
    | nonDict => simp [scoreLoopStrict] at h
    | art a =>
      simp only [scoreLoopStrict] at h
      cases hrest : scoreLoopStrict f rest with
      | error e0 => rw [hrest] at h; simp at h
      | ok r =>
        obtain ⟨s0, p0, n0⟩ := r
        obtain ⟨hs0, hp0, hn0⟩ := ih hrest
        rw [hrest] at h
        dsimp only at h
        by_cases hl : a.lang = some "English"
        · rw [if_pos hl] at h
          cases ht : a.title with
          | none =>
            rw [ht] at h
            dsimp only at h
            injection h with h
            injection h with h1 h2
            injection h2 with h2 h3
            subst h1; subst h2; subst h3
            simp [english_titles, hl, ht]
            exact ⟨hs0, hp0, hn0⟩
          | some t =>
            rw [ht] at h
            dsimp only at h
            by_cases hte : t = ""
            · rw [if_pos hte] at h
              injection h with h
              injection h with h1 h2
              injection h2 with h2 h3
              subst h1; subst h2; subst h3
              simp [english_titles, hl, ht, hte]
              exact ⟨hs0, hp0, hn0⟩
            · rw [if_neg hte] at h
              injection h with h
              injection h with h1 h2
              injection h2 with h2 h3
              subst h1; subst h2; subst h3
              refine ⟨?_, ?_, ?_⟩
              · simp [english_titles, hl, ht, hte, hs0]
              · by_cases hpos : 0 < f t
                · simp [List.filter, hpos, hp0]
                · simp [List.filter, hpos, hp0]
              · by_cases hneg : f t < 0
                · simp [List.filter, hneg, hn0]
                · simp [List.filter, hneg, hn0]
        · rw [if_neg hl] at h
          injection h with h
          injection h with h1 h2
          injection h2 with h2 h3
          subst h1; subst h2; subst h3
          simp [english_titles, hl]
          exact ⟨hs0, hp0, hn0⟩

theorem length_filter_pos_add_filter_neg_le (s : List ℚ) :
    (s.filter (fun x => decide (0 < x))).length + (s.filter (fun x => decide (x < 0))).length
      ≤ s.length := by
  induction s with
  | nil => simp
  | cons x xs ih =>
    rw [List.filter_cons, List.filter_cons]
    by_cases hp : 0 < x
    · have hn : ¬ x < 0 := by linarith
      rw [if_pos (by simpa using hp), if_neg (by simpa using hn)]
      simp only [List.length_cons]
      omega
    · by_cases hn : x < 0
      · rw [if_neg (by simpa using hp), if_pos (by simpa using hn)]
        simp only [List.length_cons]
        omega
      · rw [if_neg (by simpa using hp), if_neg (by simpa using hn)]
        simp only [List.length_cons]
        omega

theorem english_titles_length_le (es : List Entry) :
    (english_titles es).length ≤ es.length :=
  List.length_filterMap_le _ _

theorem scoreLoopLenient_of_all_art {f : String → ℚ} :
    ∀ {es : List Entry}, es.all Entry.isArt = true →
      scoreLoopStrict f es = .ok (scoreLoopLenient f es) := by
  intro es
  induction es with
  | nil => intro _; rfl
  | cons e rest ih =>
    intro hall
    rw [List.all_cons, Bool.and_eq_true] at hall
    cases e with
    | nonDict => simp [Entry.isArt] at hall
    | art a =>
      simp only [scoreLoopStrict, scoreLoopLenient, ih hall.2]
      by_cases hl : a.lang = some "English"
      · rw [if_pos hl, if_pos hl]
        cases ht : a.title with
        | none => rfl
        | some t =>
          dsimp only
          by_cases hte : t = ""
          · rw [if_pos hte, if_pos hte]
          · rw [if_neg hte, if_neg hte]
      · rw [if_neg hl, if_neg hl]

theorem scoreLoopLenient_bounds (f : String → ℚ) :
    ∀ es : List Entry,
      (scoreLoopLenient f es).2.1 + (scoreLoopLenient f es).2.2
          ≤ (scoreLoopLenient f es).1.length ∧
        (scoreLoopLenient f es).1.length ≤ es.length := by
  intro es
  induction es with
  | nil => simp [scoreLoopLenient]
  | cons e rest ih =>
    cases e with
    | nonDict =>
      simp only [scoreLoopLenient]
      exact ⟨ih.1, by simpa using Nat.le_succ_of_le ih.2⟩
    | art a =>
      simp only [scoreLoopLenient]
      by_cases hl : a.lang = some "English"
      · rw [if_pos hl]
        cases ht : a.title with
        | none => exact ⟨ih.1, by simpa using Nat.le_succ_of_le ih.2⟩
        | some t =>
          dsimp only
          by_cases hte : t = ""
          · rw [if_pos hte]
            exact ⟨ih.1, by simpa using Nat.le_succ_of_le ih.2⟩
          · rw [if_neg hte]
            obtain ⟨ih1, ih2⟩ := ih
            refine ⟨?_, by simp only [List.length_cons]; omega⟩
            by_cases hpos : 0 < f t
            · have hneg : ¬ f t < 0 := by linarith
              rw [if_pos hpos, if_neg hneg]
              simp only [List.length_cons]
              omega
            · by_cases hneg : f t < 0
              · rw [if_neg hpos, if_pos hneg]
                simp only [List.length_cons]
                omega
              · rw [if_neg hpos, if_neg hneg]
                simp only [List.length_cons]
                omega
      · rw [if_neg hl]
        exact ⟨ih.1, by simpa using Nat.le_succ_of_le ih.2⟩

/-! ## C5: neutral defaults of the store reader and the sentiment scorer -/

/-- C5: a news-summary fetch that finds no stored record and a fetch that
raises both return the documented neutral defaults (avg 0.0, counts 0, std
0.0) instead of propagating an error; a sentiment-scorer call whose external
call fails (ClientError or any other exception) returns 0; and the scorer's
result is always one of -1, 0, +1. -/
theorem c5_neutral_defaults :
    read_news_metrics_from_dynamodb .notFound = ⟨0, 0, 0, 0, 0⟩ ∧
    read_news_metrics_from_dynamodb .err = ⟨0, 0, 0, 0, 0⟩ ∧
    (∀ text, get_sentiment_score text (fun _ => .clientError) = 0) ∧
    (∀ text, get_sentiment_score text (fun _ => .otherError) = 0) ∧
    ∀ text call, get_sentiment_score text call = -1 ∨
      get_sentiment_score text call = 0 ∨ get_sentiment_score text call = 1 := by
  refine ⟨rfl, rfl, ?_, ?_, ?_⟩
  · intro text
    cases text with
    | none => rfl
    | some t =>
      by_cases h : t = "" <;> simp [get_sentiment_score, h]
  · intro text
    cases text with
    | none => rfl
    | some t =>
      by_cases h : t = "" <;> simp [get_sentiment_score, h]
  · intro text call
    cases text with
    | none => right; left; rfl
    | some t =>
      by_cases h : t = ""
      · right; left; simp [get_sentiment_score, h]
      · rcases hc : call (t.take 4900) with s | _ | _
        · cases s <;> simp [get_sentiment_score, h, hc]
        · right; left; simp [get_sentiment_score, h, hc]
        · right; left; simp [get_sentiment_score, h, hc]

/-! ## C6: the daily aggregation of process_news_file -/

/-- C6: for every raw article list on which the aggregation loop of
`process_news_file` succeeds, the scores are exactly the scores of the
English-flagged, non-empty-titled articles in order; `avg_sentiment` is their
arithmetic mean (0 when no article was scored); `sentiment_std` squares to the
population variance (and is non-negative) when at least two articles were
scored and is 0 otherwise; and the positive/negative counts are the counts of
strictly positive / strictly negative scores. -/
theorem c6_aggregation (f : String → ℚ) (es : List Entry) (s : List ℚ) (p n : ℕ)
    (hok : scoreLoopStrict f es = .ok (s, p, n)) :
    histDayAgg f es = .ok ⟨s, es.length, p, n⟩ ∧
    s = (english_titles es).map f ∧
    p = (s.filter (fun x => decide (0 < x))).length ∧
    n = (s.filter (fun x => decide (x < 0))).length ∧
    avgOf ⟨s, es.length, p, n⟩ = (if s = [] then 0 else s.sum / s.length) ∧
    (2 ≤ s.length →
      stdOf ⟨s, es.length, p, n⟩ ^ 2 =
          (((s.map (fun x => (x - s.sum / s.length) ^ 2)).sum / s.length : ℚ) : ℝ) ∧
        0 ≤ stdOf ⟨s, es.length, p, n⟩) ∧
    (s.length < 2 → stdOf ⟨s, es.length, p, n⟩ = 0) := by
  obtain ⟨hs, hp, hn⟩ := scoreLoopStrict_spec hok
  refine ⟨?_, hs, hp, hn, rfl, ?_, ?_⟩
  · unfold histDayAgg
    rw [hok]
  · intro h2
    have hstd : stdOf ⟨s, es.length, p, n⟩ = np_std s := by
      unfold stdOf
      exact if_pos h2
    have hvar : (0 : ℚ) ≤ popVar s := by
      unfold popVar
      apply div_nonneg
      · apply List.sum_nonneg
        intro x hx
        obtain ⟨y, _, rfl⟩ := List.mem_map.mp hx
        positivity
      · positivity
    have hvarR : (0 : ℝ) ≤ ((popVar s : ℚ) : ℝ) := by exact_mod_cast hvar
    refine ⟨?_, ?_⟩
    · rw [hstd]
      unfold np_std
      rw [Real.sq_sqrt hvarR]
      unfold popVar qmean
      norm_num
    · rw [hstd]
      exact Real.sqrt_nonneg _
  · intro hlt
    unfold stdOf
    dsimp only
    rw [if_neg (by omega)]

/-! ## C8: bare-list payload acceptance -/

/-- C8 counterexample: a bare-list payload holding one well-formed English
article makes the historical news-processing path raise (the `AttributeError`
of `data.get` on a list), so the claim that both paths accept bare lists
without raising is false. -/
theorem c8_counterexample :
    process_news_file_metrics (fun _ => 0)
        (.list [.art ⟨some "English", some "t"⟩]) = .error () := rfl

/-- C8 amended: the current-day path accepts a bare-list payload and processes
it exactly as the same list wrapped in an object (and, being a total function
of the payload, never raises), while the historical path
(`process_news_file`) raises on every bare-list payload. -/
theorem c8_amended (f : String → ℚ) (es : List Entry) :
    currentDayAgg f (some (.list es)) = currentDayAgg f (some (.dict es)) ∧
    process_news_file_metrics f (.list es) = .error () :=
  ⟨rfl, rfl⟩

/-! ## C9: the reported article count at both call sites -/

/-- C9: at both aggregation call sites the reported article count is the total
number of articles in the raw payload before language and title filtering
(`len(articles)`), while the positive and negative counts only count scored
articles, so their sum never exceeds the reported count.  The historical site
is conditioned on its loop succeeding (it raises on non-dict entries). -/
theorem c9_counts (f : String → ℚ) (es : List Entry) (s : List ℚ) (p n : ℕ)
    (hok : scoreLoopStrict f es = .ok (s, p, n)) :
    histDayAgg f es = .ok ⟨s, es.length, p, n⟩ ∧
    p + n ≤ es.length ∧
    (∀ es2 : List Entry, (currentDayAgg f (some (.dict es2))).total = es2.length ∧
      (currentDayAgg f (some (.list es2))).total = es2.length) ∧
    ∀ es2 : List Entry,
      (currentDayAgg f (some (.dict es2))).pos + (currentDayAgg f (some (.dict es2))).neg
        ≤ (currentDayAgg f (some (.dict es2))).total := by
  obtain ⟨hs, hp, hn⟩ := scoreLoopStrict_spec hok
  refine ⟨?_, ?_, ?_, ?_⟩
  · unfold histDayAgg
    rw [hok]
  · have h1 : p + n ≤ s.length := by
      rw [hp, hn]
      exact length_filter_pos_add_filter_neg_le s
    have h2 : s.length ≤ es.length := by
      rw [hs]
      simpa using english_titles_length_le es
    omega
  · intro es2
    constructor
    · unfold currentDayAgg
      dsimp only
      by_cases h : es2 = []
      · rw [if_pos h, h]
        rfl
      · rw [if_neg h]
    · unfold currentDayAgg
      dsimp only
      by_cases h : es2 = []
      · rw [if_pos h, h]
        rfl
      · rw [if_neg h]
  · intro es2
    unfold currentDayAgg
    dsimp only
    by_cases h : es2 = []
    · rw [if_pos h]
      simp
    · rw [if_neg h]
      obtain ⟨b1, b2⟩ := scoreLoopLenient_bounds f es2
      dsimp only
      omega

/-! ## C10: the store round-trip -/

/-- C10: retrieving a summary persisted by `process_news_file` returns the
average sentiment and the standard deviation rounded to 4 decimal places (the
effect of storing them via the format string and parsing the string back) and
the three integer counts unchanged; and a rational survives the 4-decimal
rounding unchanged exactly when it is representable in 4 decimals. -/
theorem c10_roundtrip :
    (∀ a : DayAgg, read_news_metrics_from_dynamodb (.found (stored_item_of a)) =
      ⟨round4 (avgOf a), a.total, a.pos, a.neg, round4R (stdOf a)⟩) ∧
    ∀ q : ℚ, round4 q = q ↔ ∃ z : ℤ, q = z / 10000 := by
  constructor
  · intro a
    rfl
  · intro q
    constructor
    · intro h
      exact ⟨round (q * 10000), by rw [← h]; unfold round4; norm_num⟩
    · rintro ⟨z, rfl⟩
      unfold round4
      have : (z : ℚ) / 10000 * 10000 = (z : ℚ) := by norm_num
      rw [this, round_intCast]

/-! ## Index lemmas for the feature paths -/

theorem find_idx_date_spec : ∀ {bars : List Bar} {D : ℤ} {i : ℕ},
    find_idx_date bars D = some i → i < bars.length ∧ (bars.getD i default).date = D := by
  intro bars
  induction bars with
  | nil => intro D i h; simp [find_idx_date] at h
  | cons b bs ih =>
    intro D i h
    simp only [find_idx_date] at h
    by_cases hb : b.date = D
    · rw [if_pos hb] at h
      injection h with h
      subst h
      exact ⟨by simp, by simpa using hb⟩
    · rw [if_neg hb] at h
      cases hfi : find_idx_date bs D with
      | none => rw [hfi] at h; simp at h
      | some j =>
        rw [hfi] at h
        simp only [Option.map] at h
        injection h with h
        subst h
        obtain ⟨h1, h2⟩ := ih hfi
        exact ⟨by simpa using Nat.succ_lt_succ h1, by simpa using h2⟩

theorem rollingMean_three_getD {xs : List ℚ} {i : ℕ} (hi : i < xs.length) (h2 : 2 ≤ i) :
    (rollingMean 3 xs).getD i 0 = (xs.getD (i - 2) 0 + xs.getD (i - 1) 0 + xs.getD i 0) / 3 := by
  unfold rollingMean
  rw [getD_range_map _ _ _ _ hi, windowSlice_three _ _ _ h2, qmean_cons_three]

theorem inc_avg24_getD (fetch : ℤ → FetchResult) (v : ℚ) (D : ℤ) (bars : List Bar)
    {i : ℕ} (hi : i < bars.length) :
    (inc_avg24 fetch v D bars).getD i 0 =
      (if (bars.getD i default).date = D then v
       else if D - 5 ≤ (bars.getD i default).date ∧ (bars.getD i default).date < D then
         read_historical_news_metrics (fetch (bars.getD i default).date)
       else 0) := by
  unfold inc_avg24
  rw [getD_range_map _ _ _ _ hi]

theorem inc_avg24_indep {fetch fetch' : ℤ → FetchResult} (v : ℚ) (D : ℤ) (bars : List Bar)
    (hagree : ∀ d, d ≠ D → fetch d = fetch' d) :
    inc_avg24 fetch v D bars = inc_avg24 fetch' v D bars := by
  unfold inc_avg24
  congr 1
  funext i
  by_cases hD : (bars.getD i default).date = D
  · rw [if_pos hD, if_pos hD]
  · rw [if_neg hD, if_neg hD]
    by_cases hw : D - 5 ≤ (bars.getD i default).date ∧ (bars.getD i default).date < D
    · rw [if_pos hw, if_pos hw, hagree _ hD]
    · rw [if_neg hw, if_neg hw]

/-! ## C4: the same-day override in the incremental path -/

/-- C4: in the single-target-day path, the `avg_sentiment_24h` of the output
row is the value computed fresh from the target day's raw articles; the stored
news entry for the target date is never consulted (any two stores agreeing off
the target date give identical output); and `avg_sentiment_3d` is the rolling
3-day mean computed after the override, i.e. the mean of the two prior trading
days' stored averages and the fresh same-day average. -/
theorem c4_same_day_override (dow mon : ℤ → ℤ) (f : String → ℚ)
    (fetch fetch' : ℤ → FetchResult) (p : Option Payload) (bars : List Bar) (D : ℤ) (i : ℕ)
    (hfind : find_idx_date bars D = some i)
    (h2 : 2 ≤ i)
    (hsorted : ∀ j k, j < k → k < bars.length →
      (bars.getD j default).date < (bars.getD k default).date)
    (hwin : D - 5 ≤ (bars.getD (i - 2) default).date)
    (hagree : ∀ d, d ≠ D → fetch d = fetch' d) :
    calculate_single_day_features dow mon f fetch p bars D
        = calculate_single_day_features dow mon f fetch' p bars D ∧
    (calculate_single_day_features dow mon f fetch p bars D).map
        (fun r => r.avg_sentiment_24h) = some (avgOf (currentDayAgg f p)) ∧
    (calculate_single_day_features dow mon f fetch p bars D).map
        (fun r => r.avg_sentiment_3d) = some
      ((read_historical_news_metrics (fetch (bars.getD (i - 2) default).date)
        + read_historical_news_metrics (fetch (bars.getD (i - 1) default).date)
        + avgOf (currentDayAgg f p)) / 3) := by
  obtain ⟨hlen, hdate⟩ := find_idx_date_spec hfind
  have hlen24 : (inc_avg24 fetch (avgOf (currentDayAgg f p)) D bars).length = bars.length :=
    length_range_map _ _
  have hd1 : (bars.getD (i - 1) default).date < D := by
    have := hsorted (i - 1) i (by omega) hlen
    omega
  have hd2 : (bars.getD (i - 2) default).date < D := by
    have := hsorted (i - 2) i (by omega) hlen
    omega
  have hw1 : D - 5 ≤ (bars.getD (i - 1) default).date := by
    have := hsorted (i - 2) (i - 1) (by omega) (by omega)
    omega
  have hat : (inc_avg24 fetch (avgOf (currentDayAgg f p)) D bars).getD i 0
      = avgOf (currentDayAgg f p) := by
    rw [inc_avg24_getD fetch _ D bars hlen, if_pos hdate]
  have hat1 : (inc_avg24 fetch (avgOf (currentDayAgg f p)) D bars).getD (i - 1) 0
      = read_historical_news_metrics (fetch (bars.getD (i - 1) default).date) := by
    rw [inc_avg24_getD fetch _ D bars (by omega : i - 1 < bars.length)]
    rw [if_neg (by omega), if_pos ⟨hw1, hd1⟩]
  have hat2 : (inc_avg24 fetch (avgOf (currentDayAgg f p)) D bars).getD (i - 2) 0
      = read_historical_news_metrics (fetch (bars.getD (i - 2) default).date) := by
    rw [inc_avg24_getD fetch _ D bars (by omega : i - 2 < bars.length)]
    rw [if_neg (by omega), if_pos ⟨hwin, hd2⟩]
  refine ⟨?_, ?_, ?_⟩
  · simp only [calculate_single_day_features]
    rw [inc_avg24_indep _ _ _ hagree]
  · simp only [calculate_single_day_features, hfind, Option.map_some]
    rw [hat]
    rfl
  · simp only [calculate_single_day_features, hfind, Option.map_some]
    rw [rollingMean_three_getD (by omega) h2, hat, hat1, hat2]
    rfl

/-- Witness for C4: a concrete three-bar frame with target date 2, a store
holding 1/2 for date 1 (and a conflicting entry for date 2 that the path must
ignore), and a fresh payload with one positive English article. -/
theorem c4_same_day_override_witness :
    find_idx_date [⟨0, 10, 1⟩, ⟨1, 10, 1⟩, ⟨2, 10, 1⟩] 2 = some 2 ∧
    (calculate_single_day_features (fun _ => 0) (fun _ => 0) (fun _ => 1)
        (fun d => if d = 1 then .found ⟨1/2, 1, 1, 0, 0⟩ else .notFound)
        (some (.dict [.art ⟨some "English", some "up"⟩]))
        [⟨0, 10, 1⟩, ⟨1, 10, 1⟩, ⟨2, 10, 1⟩] 2).map (fun r => r.avg_sentiment_24h)
      = some (avgOf (currentDayAgg (fun _ => 1)
          (some (.dict [.art ⟨some "English", some "up"⟩])))) := by
  constructor
  · rfl
  · exact (c4_same_day_override (fun _ => 0) (fun _ => 0) (fun _ => 1)
      (fun d => if d = 1 then .found ⟨1/2, 1, 1, 0, 0⟩ else .notFound)
      (fun d => if d = 1 then .found ⟨1/2, 1, 1, 0, 0⟩ else .notFound)
      (some (.dict [.art ⟨some "English", some "up"⟩]))
      [⟨0, 10, 1⟩, ⟨1, 10, 1⟩, ⟨2, 10, 1⟩] 2 2
      rfl (by omega)
      (by
        intro j k hjk hk
        simp only [List.length_cons, List.length_nil] at hk
        interval_cases k
        · omega
        · interval_cases j
          · decide
        · interval_cases j
          · decide
          · decide)
      (by decide)
      (fun _ _ => rfl)).2.1

/-! ## C3: the two missing-value policies -/

theorem hist_drops_inc_fills (dow mon : ℤ → ℤ) (f : String → ℚ) (fetch : ℤ → FetchResult)
    (p : Option Payload) (bars : List Bar) (D : ℤ) (i : ℕ)
    (hfind : find_idx_date bars D = some i)
    (hnull : (ret_1d bars).getD i none = none) :
    create_features_at dow mon fetch bars D = none ∧
    (calculate_single_day_features dow mon f fetch p bars D).map (fun r => r.ret_1d)
      = some 0 ∧
    calculate_single_day_features dow mon f fetch p bars D ≠ none := by
  refine ⟨?_, ?_, ?_⟩
  · simp only [create_features_at, hfind]
    by_cases h3y : max_date bars - 1095 ≤ D
    · rw [if_pos h3y]
      split
      · next r1 m5 ab rl vv rx heq1 heq2 heq3 heq4 heq5 heq6 =>
        rw [hnull] at heq1
        exact Option.noConfusion heq1
      · rfl
    · rw [if_neg h3y]
  · simp only [calculate_single_day_features, hfind, Option.map_some, hnull]
    rfl
  · simp only [calculate_single_day_features, hfind]
    exact Option.noConfusion

/-- C3 counterexample: with one price bar (date 0, close 10, volume 1), no
stored news anywhere, and no raw articles, `ret_1d` of the only row is NaN;
the historical path drops the row (it produces no output row for date 0),
while the inference-time path produces a row with `ret_1d` imputed to 0 — so
the 0-imputation rule is not applied identically by the two paths. -/
theorem c3_counterexample :
    create_features_at (fun _ => 0) (fun _ => 0) (fun _ => .notFound) [⟨0, 10, 1⟩] 0 = none ∧
    (calculate_single_day_features (fun _ => 0) (fun _ => 0) (fun _ => 0)
        (fun _ => .notFound) none [⟨0, 10, 1⟩] 0).map (fun r => r.ret_1d) = some 0 := by
  obtain ⟨h1, h2, h3⟩ := hist_drops_inc_fills (fun _ => 0) (fun _ => 0) (fun _ => 0)
    (fun _ => .notFound) none [⟨0, 10, 1⟩] 0 0 rfl rfl
  exact ⟨h1, h2⟩

/-- C3 amended: only the inference-time path imputes a still-null required
feature with 0; the historical backfill path instead drops any row whose
checked features contain a null, emitting no row at all for that date.
Concretely, whenever the target date's `ret_1d` is null, the incremental path
returns a row whose `ret_1d` is 0 while the historical path returns no row. -/
theorem c3_amended (dow mon : ℤ → ℤ) (f : String → ℚ) (fetch : ℤ → FetchResult)
    (p : Option Payload) (bars : List Bar) (D : ℤ) (i : ℕ)
    (hfind : find_idx_date bars D = some i)
    (hnull : (ret_1d bars).getD i none = none) :
    create_features_at dow mon fetch bars D = none ∧
    (calculate_single_day_features dow mon f fetch p bars D).map (fun r => r.ret_1d)
      = some 0 ∧
    calculate_single_day_features dow mon f fetch p bars D ≠ none :=
  hist_drops_inc_fills dow mon f fetch p bars D i hfind hnull

/-- Witness for C3: the hypotheses of the amended theorem hold for the
one-bar frame of the counterexample. -/
theorem c3_amended_witness :
    find_idx_date [⟨0, 10, 1⟩] 0 = some 0 ∧
    create_features_at (fun _ => 0) (fun _ => 0) (fun _ => .err) [⟨0, 10, 1⟩] 0 = none :=
  ⟨rfl, (c3_amended (fun _ => 0) (fun _ => 0) (fun _ => 0) (fun _ => .err) none
    [⟨0, 10, 1⟩] 0 0 rfl rfl).1⟩

/-! ## C7: independence of the batch units in the handler -/

theorem lambda_handler_foldl_shift (dow mon : ℤ → ℤ) (f : String → ℚ)
    (fetch : String → ℤ → FetchResult) (payloads : String → ℤ → Option Payload) :
    ∀ (recs : List S3Record) (a b : ℕ) (c : List FeatureRow),
      recs.foldl (handler_step dow mon f fetch payloads) (a, b, c)
        = (a + (lambda_handler dow mon f fetch payloads recs).1,
           b + (lambda_handler dow mon f fetch payloads recs).2.1,
           c ++ (lambda_handler dow mon f fetch payloads recs).2.2) := by
  intro recs
  induction recs with
  | nil =>
    intro a b c
    simp [lambda_handler]
  | cons r rest ih =>
    intro a b c
    simp only [lambda_handler, List.foldl_cons] at ih ⊢
    cases hpr : process_record dow mon f fetch payloads r with
    | skipped =>
      have h1 : handler_step dow mon f fetch payloads (a, b, c) r = (a, b, c) := by
        unfold handler_step
        rw [hpr]
      have h2 : handler_step dow mon f fetch payloads (0, 0, []) r = (0, 0, []) := by
        unfold handler_step
        rw [hpr]
      rw [h1, h2, ih]
    | errored =>
      have h1 : handler_step dow mon f fetch payloads (a, b, c) r = (a, b + 1, c) := by
        unfold handler_step
        rw [hpr]
      have h2 : handler_step dow mon f fetch payloads (0, 0, []) r = (0, 0 + 1, []) := by
        unfold handler_step
        rw [hpr]
      rw [h1, h2, ih a (b + 1) c, ih 0 (0 + 1) []]
      simp only [Prod.ext_iff, List.nil_append]
      refine ⟨by omega, by omega, trivial⟩
    | wrote row =>
      have h1 : handler_step dow mon f fetch payloads (a, b, c) r
          = (a + 1, b, c ++ [row]) := by
        unfold handler_step
        rw [hpr]
      have h2 : handler_step dow mon f fetch payloads (0, 0, []) r
          = (0 + 1, 0, [] ++ [row]) := by
        unfold handler_step
        rw [hpr]
      rw [h1, h2, ih (a + 1) b (c ++ [row]), ih (0 + 1) 0 ([] ++ [row])]
      simp only [Prod.ext_iff, List.nil_append, List.append_assoc]
      refine ⟨by omega, by omega, trivial⟩

/-- C7: a batch unit whose filtered price window has zero bars fails fatally
for that unit alone — its error is counted, no feature row is written for it —
while the remaining records of the batch are processed exactly as if the bad
record were absent, and the handler surfaces partial failure through the
aggregated counts and a 207 status (200 only for an error-free batch). -/
theorem c7_batch_isolation (dow mon : ℤ → ℤ) (f : String → ℚ)
    (fetch : String → ℤ → FetchResult) (payloads : String → ℤ → Option Payload)
    (pre post : List S3Record) (bad : S3Record)
    (hvalid : bad.validKey = true) (hparse : bad.parseOk = true)
    (hempty : bad.bars.filter (fun b => decide (bad.targetDate - 250 ≤ b.date)) = []) :
    lambda_handler dow mon f fetch payloads (pre ++ bad :: post)
        = ((lambda_handler dow mon f fetch payloads (pre ++ post)).1,
           (lambda_handler dow mon f fetch payloads (pre ++ post)).2.1 + 1,
           (lambda_handler dow mon f fetch payloads (pre ++ post)).2.2) ∧
    handler_status ((lambda_handler dow mon f fetch payloads (pre ++ bad :: post)).2.1)
      = 207 ∧
    handler_status 0 = 200 := by
  have hbad : process_record dow mon f fetch payloads bad = .errored := by
    unfold process_record
    rw [hvalid, hparse]
    simp only [Bool.not_true, if_false]
    rw [hempty]
    simp
  have hsplit : lambda_handler dow mon f fetch payloads (pre ++ bad :: post)
      = ((lambda_handler dow mon f fetch payloads (pre ++ post)).1,
         (lambda_handler dow mon f fetch payloads (pre ++ post)).2.1 + 1,
         (lambda_handler dow mon f fetch payloads (pre ++ post)).2.2) := by
    unfold lambda_handler
    rw [List.foldl_append, List.foldl_append, List.foldl_cons]
    have hstep : ∀ acc : ℕ × ℕ × List FeatureRow,
        handler_step dow mon f fetch payloads acc bad = (acc.1, acc.2.1 + 1, acc.2.2) := by
      intro acc
      unfold handler_step
      rw [hbad]
    rw [hstep]
    rcases hpre : pre.foldl (handler_step dow mon f fetch payloads) (0, 0, []) with ⟨a, bc⟩
    rcases bc with ⟨b, c⟩
    rw [lambda_handler_foldl_shift, lambda_handler_foldl_shift]
    simp
    omega
  refine ⟨hsplit, ?_, rfl⟩
  rw [hsplit]
  unfold handler_status
  simp

/-- Witness for C7: a concrete batch of one good record (two bars, target date
1, all features fillable) surrounded by one bad record whose only bar is more
than 250 days before its target date, so the filtered window is empty. -/
theorem c7_batch_isolation_witness :
    (⟨true, true, "A", 1000, [⟨0, 10, 1⟩]⟩ : S3Record).validKey = true ∧
    (⟨true, true, "A", 1000, [⟨0, 10, 1⟩]⟩ : S3Record).bars.filter
        (fun b => decide ((1000 : ℤ) - 250 ≤ b.date)) = [] ∧
    handler_status ((lambda_handler (fun _ => 0) (fun _ => 0) (fun _ => 0)
        (fun _ _ => .notFound) (fun _ _ => none)
        ([] ++ (⟨true, true, "A", 1000, [⟨0, 10, 1⟩]⟩ : S3Record) ::
          [⟨true, true, "B", 1, [⟨0, 10, 1⟩, ⟨1, 11, 1⟩]⟩])).2.1) = 207 := by
  refine ⟨rfl, by decide, ?_⟩
  exact (c7_batch_isolation (fun _ => 0) (fun _ => 0) (fun _ => 0)
    (fun _ _ => .notFound) (fun _ _ => none) []
    [⟨true, true, "B", 1, [⟨0, 10, 1⟩, ⟨1, 11, 1⟩]⟩]
    ⟨true, true, "A", 1000, [⟨0, 10, 1⟩]⟩ rfl rfl (by decide)).2.1

/-! ## C1: historical vs incremental equivalence -/

theorem any_isSome_of_getD {l : List (Option ℚ)} {i : ℕ} (hi : i < l.length)
    (h : l.getD i none ≠ none) : (l.any fun o => o.isSome) = true := by
  rw [List.any_eq_true]
  refine ⟨l.getD i none, ?_, ?_⟩
  · rw [List.getD_eq_getElem?_getD, List.getElem?_eq_getElem hi]
    exact List.getElem_mem hi
  · cases hx : l.getD i none with
    | none => exact absurd hx h
    | some v => rfl

theorem read_historical_eq_full_avg (r : FetchResult) :
    read_historical_news_metrics r
      = (read_news_metrics_from_dynamodb r).avg_sentiment_24h := by
  cases r <;> rfl

theorem hist_avg24_getD (fetch : ℤ → FetchResult) (bars : List Bar) {i : ℕ}
    (hi : i < bars.length) :
    (hist_avg24 fetch bars).getD i 0 =
      (read_news_metrics_from_dynamodb (fetch (bars.getD i default).date)).avg_sentiment_24h := by
  unfold hist_avg24
  rw [getD_range_map _ _ _ _ hi]

theorem currentDayAgg_of_strict {f : String → ℚ} {es : List Entry} {aggD : DayAgg}
    (hall : es.all Entry.isArt = true)
    (hproc : process_news_file_metrics f (.dict es) = .ok (some aggD)) :
    currentDayAgg f (some (.dict es)) = aggD := by
  unfold process_news_file_metrics at hproc
  dsimp only at hproc
  by_cases he : es = []
  · rw [if_pos he] at hproc
    exact Option.noConfusion (Except.ok.inj hproc)
  · rw [if_neg he] at hproc
    cases hh : histDayAgg f es with
    | error e => rw [hh] at hproc; exact Except.noConfusion hproc
    | ok a =>
      rw [hh] at hproc
      have ha : a = aggD := Option.some.inj (Except.ok.inj hproc)
      unfold histDayAgg at hh
      rw [scoreLoopLenient_of_all_art hall] at hh
      have := Except.ok.inj hh
      unfold currentDayAgg
      dsimp only
      rw [if_neg he, ← ha]
      exact this

theorem c1_core (dow mon : ℤ → ℤ) (f : String → ℚ) (fetch : ℤ → FetchResult)
    (es : List Entry) (aggD : DayAgg) (bars : List Bar) (D : ℤ) (i : ℕ)
    (hfind : find_idx_date bars D = some i)
    (h2 : 2 ≤ i)
    (hsorted : ∀ j k, j < k → k < bars.length →
      (bars.getD j default).date < (bars.getD k default).date)
    (hwin : D - 5 ≤ (bars.getD (i - 2) default).date)
    (h3y : max_date bars - 1095 ≤ D)
    (h_r1 : (ret_1d bars).getD i none ≠ none)
    (h_m5 : (mom_5d bars).getD i none ≠ none)
    (h_ab : (abn_volume bars).getD i none ≠ none)
    (h_rl : (ret_lag_1d bars).getD i none ≠ none)
    (h_vv : (vol20_var bars).getD i none ≠ none)
    (h_rx : (rxv_hist bars).getD i none ≠ none)
    (hall : es.all Entry.isArt = true)
    (hproc : process_news_file_metrics f (.dict es) = .ok (some aggD))
    (hfD : fetch D = .found (stored_item_of aggD))
    (hrep : round4 (avgOf aggD) = avgOf aggD)
    (hrepStd : ((round4R (stdOf aggD) : ℚ) : ℝ) = stdOf aggD) :
    create_features_at dow mon fetch bars D
      = calculate_single_day_features dow mon f fetch (some (.dict es)) bars D := by
  obtain ⟨hlen, hdate⟩ := find_idx_date_spec hfind
  obtain ⟨r1, hr1⟩ := Option.ne_none_iff_exists'.mp h_r1
  obtain ⟨m5, hm5⟩ := Option.ne_none_iff_exists'.mp h_m5
  obtain ⟨ab, hab⟩ := Option.ne_none_iff_exists'.mp h_ab
  obtain ⟨rl, hrl⟩ := Option.ne_none_iff_exists'.mp h_rl
  obtain ⟨vv, hvv⟩ := Option.ne_none_iff_exists'.mp h_vv
  obtain ⟨rx, hrx⟩ := Option.ne_none_iff_exists'.mp h_rx
  have hfresh : currentDayAgg f (some (.dict es)) = aggD := currentDayAgg_of_strict hall hproc
  have hread : read_news_metrics_from_dynamodb (fetch D)
      = ⟨round4 (avgOf aggD), aggD.total, aggD.pos, aggD.neg, round4R (stdOf aggD)⟩ := by
    rw [hfD]
    rfl
  have hlen_h24 : (hist_avg24 fetch bars).length = bars.length := length_range_map _ _
  have hlen_i24 : (inc_avg24 fetch (avgOf (currentDayAgg f (some (.dict es)))) D bars).length
      = bars.length := length_range_map _ _
  have hd1 : (bars.getD (i - 1) default).date < D := by
    have := hsorted (i - 1) i (by omega) hlen
    omega
  have hd2 : (bars.getD (i - 2) default).date < D := by
    have := hsorted (i - 2) i (by omega) hlen
    omega
  have hw1 : D - 5 ≤ (bars.getD (i - 1) default).date := by
    have := hsorted (i - 2) (i - 1) (by omega) (by omega)
    omega
  have havgD_hist : (hist_avg24 fetch bars).getD i 0
      = avgOf (currentDayAgg f (some (.dict es))) := by
    rw [hist_avg24_getD fetch bars hlen, hdate, hread, hfresh]
    exact hrep
  have havgD_inc : (inc_avg24 fetch (avgOf (currentDayAgg f (some (.dict es)))) D bars).getD i 0
      = avgOf (currentDayAgg f (some (.dict es))) := by
    rw [inc_avg24_getD fetch _ D bars hlen, if_pos hdate]
  have havg1 : (inc_avg24 fetch (avgOf (currentDayAgg f (some (.dict es)))) D bars).getD (i - 1) 0
      = (hist_avg24 fetch bars).getD (i - 1) 0 := by
    rw [inc_avg24_getD fetch _ D bars (by omega : i - 1 < bars.length)]
    rw [if_neg (by omega), if_pos ⟨hw1, hd1⟩]
    rw [hist_avg24_getD fetch bars (by omega : i - 1 < bars.length)]
    exact read_historical_eq_full_avg _
  have havg2 : (inc_avg24 fetch (avgOf (currentDayAgg f (some (.dict es)))) D bars).getD (i - 2) 0
      = (hist_avg24 fetch bars).getD (i - 2) 0 := by
    rw [inc_avg24_getD fetch _ D bars (by omega : i - 2 < bars.length)]
    rw [if_neg (by omega), if_pos ⟨hwin, hd2⟩]
    rw [hist_avg24_getD fetch bars (by omega : i - 2 < bars.length)]
    exact read_historical_eq_full_avg _
  have hs3d : (rollingMean 3 (hist_avg24 fetch bars)).getD i 0
      = (rollingMean 3 (inc_avg24 fetch
          (avgOf (currentDayAgg f (some (.dict es)))) D bars)).getD i 0 := by
    rw [rollingMean_three_getD (by omega) h2, rollingMean_three_getD (by omega) h2]
    rw [havgD_hist, havgD_inc, havg1, havg2]
  have hany : ((abn_volume bars).any fun o => o.isSome) = true := by
    have hval : (abn_volume bars).length = bars.length := length_range_map _ _
    exact any_isSome_of_getD (by omega) h_ab
  simp only [create_features_at, calculate_single_day_features, hfind]
  rw [if_pos h3y, hr1, hm5, hab, hrl, hvv, hrx]
  dsimp only
  simp only [Option.some.injEq, FeatureRow.mk.injEq, Option.getD_some, true_and, and_true]
  refine ⟨?_, by rw [havgD_hist, havgD_inc], ?_, ?_, ?_, ?_, hs3d⟩
  · unfold rxv_inc
    rw [if_pos hany]
    have hmul : (rxv_mul bars).getD i none = some rx := hrx
    rw [hmul]
    rfl
  · rw [hdate, hread, hfresh]
  · rw [hdate, hread, hfresh]
  · rw [hdate, hread, hfresh]
  · rw [hdate, hread, hfresh]
    exact hrepStd

theorem hist_row_avg24 (dow mon : ℤ → ℤ) (fetch : ℤ → FetchResult)
    (bars : List Bar) (D : ℤ) (i : ℕ)
    (hfind : find_idx_date bars D = some i)
    (h3y : max_date bars - 1095 ≤ D)
    (h_r1 : (ret_1d bars).getD i none ≠ none)
    (h_m5 : (mom_5d bars).getD i none ≠ none)
    (h_ab : (abn_volume bars).getD i none ≠ none)
    (h_rl : (ret_lag_1d bars).getD i none ≠ none)
    (h_vv : (vol20_var bars).getD i none ≠ none)
    (h_rx : (rxv_hist bars).getD i none ≠ none) :
    (create_features_at dow mon fetch bars D).map (fun r => r.avg_sentiment_24h)
      = some ((read_news_metrics_from_dynamodb (fetch D)).avg_sentiment_24h) := by
  obtain ⟨hlen, hdate⟩ := find_idx_date_spec hfind
  obtain ⟨r1, hr1⟩ := Option.ne_none_iff_exists'.mp h_r1
  obtain ⟨m5, hm5⟩ := Option.ne_none_iff_exists'.mp h_m5
  obtain ⟨ab, hab⟩ := Option.ne_none_iff_exists'.mp h_ab
  obtain ⟨rl, hrl⟩ := Option.ne_none_iff_exists'.mp h_rl
  obtain ⟨vv, hvv⟩ := Option.ne_none_iff_exists'.mp h_vv
  obtain ⟨rx, hrx⟩ := Option.ne_none_iff_exists'.mp h_rx
  simp only [create_features_at, hfind]
  rw [if_pos h3y, hr1, hm5, hab, hrl, hvv, hrx]
  dsimp only
  rw [hist_avg24_getD fetch bars hlen, hdate]
  rfl

theorem inc_row_avg24 (dow mon : ℤ → ℤ) (f : String → ℚ) (fetch : ℤ → FetchResult)
    (p : Option Payload) (bars : List Bar) (D : ℤ) (i : ℕ)
    (hfind : find_idx_date bars D = some i) :
    (calculate_single_day_features dow mon f fetch p bars D).map
        (fun r => r.avg_sentiment_24h) = some (avgOf (currentDayAgg f p)) := by
  obtain ⟨hlen, hdate⟩ := find_idx_date_spec hfind
  simp only [calculate_single_day_features, hfind, Option.map_some]
  rw [inc_avg24_getD fetch _ D bars hlen, if_pos hdate]
  rfl

theorem bars6_defined :
    (ret_1d [⟨0, 5, 1⟩, ⟨1, 5, 1⟩, ⟨2, 5, 1⟩, ⟨3, 5, 1⟩, ⟨4, 5, 1⟩, ⟨5, 5, 1⟩]).getD 5 none
        ≠ none ∧
    (mom_5d [⟨0, 5, 1⟩, ⟨1, 5, 1⟩, ⟨2, 5, 1⟩, ⟨3, 5, 1⟩, ⟨4, 5, 1⟩, ⟨5, 5, 1⟩]).getD 5 none
        ≠ none ∧
    (abn_volume [⟨0, 5, 1⟩, ⟨1, 5, 1⟩, ⟨2, 5, 1⟩, ⟨3, 5, 1⟩, ⟨4, 5, 1⟩, ⟨5, 5, 1⟩]).getD 5 none
        ≠ none ∧
    (ret_lag_1d [⟨0, 5, 1⟩, ⟨1, 5, 1⟩, ⟨2, 5, 1⟩, ⟨3, 5, 1⟩, ⟨4, 5, 1⟩, ⟨5, 5, 1⟩]).getD 5 none
        ≠ none ∧
    (vol20_var [⟨0, 5, 1⟩, ⟨1, 5, 1⟩, ⟨2, 5, 1⟩, ⟨3, 5, 1⟩, ⟨4, 5, 1⟩, ⟨5, 5, 1⟩]).getD 5 none
        ≠ none ∧
    (rxv_hist [⟨0, 5, 1⟩, ⟨1, 5, 1⟩, ⟨2, 5, 1⟩, ⟨3, 5, 1⟩, ⟨4, 5, 1⟩, ⟨5, 5, 1⟩]).getD 5 none
        ≠ none := by
  refine ⟨?_, ?_, ?_, ?_, ?_, ?_⟩ <;>
    · norm_num [ret_1d, mom_5d, abn_volume, ret_lag_1d, vol20_var, rxv_hist, rxv_mul, shiftOne,
        pctChange, closes, volumes, rollingSampleVar, sampleVar, windowSlice, winLo, qmean,
        List.range_succ, List.getD_cons_succ, List.getD_cons_zero, List.filterMap_cons]
      simp

/-- C1 counterexample: six bars of constant price 5 and volume 1 (dates 0-5),
three English articles for date 5 scoring 1, 0, 0, and a store holding exactly
what the historical news processor persisted for that day from those articles.
The historical path reads `avg_sentiment_24h` back from the store and gets the
4-decimal value 0.3333, while the single-target-day path computes 1/3 fresh —
so the two feature rows for date 5 differ in that field and the paths are not
numerically identical even on identical underlying data. -/
theorem c1_counterexample :
    process_news_file_metrics (fun t => if t = "a" then 1 else 0)
        (.dict [.art ⟨some "English", some "a"⟩, .art ⟨some "English", some "b"⟩,
          .art ⟨some "English", some "c"⟩]) = .ok (some ⟨[1, 0, 0], 3, 1, 0⟩) ∧
    (create_features_at (fun _ => 0) (fun _ => 0)
        (fun d => if d = 5 then .found (stored_item_of ⟨[1, 0, 0], 3, 1, 0⟩) else .notFound)
        [⟨0, 5, 1⟩, ⟨1, 5, 1⟩, ⟨2, 5, 1⟩, ⟨3, 5, 1⟩, ⟨4, 5, 1⟩, ⟨5, 5, 1⟩] 5).map
        (fun r => r.avg_sentiment_24h) = some (3333 / 10000) ∧
    (calculate_single_day_features (fun _ => 0) (fun _ => 0) (fun t => if t = "a" then 1 else 0)
        (fun d => if d = 5 then .found (stored_item_of ⟨[1, 0, 0], 3, 1, 0⟩) else .notFound)
        (some (.dict [.art ⟨some "English", some "a"⟩, .art ⟨some "English", some "b"⟩,
          .art ⟨some "English", some "c"⟩]))
        [⟨0, 5, 1⟩, ⟨1, 5, 1⟩, ⟨2, 5, 1⟩, ⟨3, 5, 1⟩, ⟨4, 5, 1⟩, ⟨5, 5, 1⟩] 5).map
        (fun r => r.avg_sentiment_24h) = some (1 / 3) ∧
    (3333 / 10000 : ℚ) ≠ 1 / 3 := by
  obtain ⟨h1, h2, h3, h4, h5, h6⟩ := bars6_defined
  refine ⟨?_, ?_, ?_, by norm_num⟩
  · norm_num [process_news_file_metrics, histDayAgg, scoreLoopStrict,
      (by decide : ¬(("a" : String) = "")), (by decide : ¬(("b" : String) = "")),
      (by decide : ¬(("c" : String) = "")), (by decide : ¬(("b" : String) = "a")),
      (by decide : ¬(("c" : String) = "a")),
      (by decide : ¬([Entry.art ⟨some "English", some "a"⟩, .art ⟨some "English", some "b"⟩,
        .art ⟨some "English", some "c"⟩] = []))]
  · rw [hist_row_avg24 (fun _ => 0) (fun _ => 0)
      (fun d => if d = 5 then .found (stored_item_of ⟨[1, 0, 0], 3, 1, 0⟩) else .notFound)
      [⟨0, 5, 1⟩, ⟨1, 5, 1⟩, ⟨2, 5, 1⟩, ⟨3, 5, 1⟩, ⟨4, 5, 1⟩, ⟨5, 5, 1⟩] 5 5
      rfl (by decide) h1 h2 h3 h4 h5 h6]
    norm_num [read_news_metrics_from_dynamodb, stored_item_of, round4, avgOf, qmean, round_eq,
      List.cons_ne_nil]
  · rw [inc_row_avg24 (fun _ => 0) (fun _ => 0) (fun t => if t = "a" then 1 else 0)
      (fun d => if d = 5 then .found (stored_item_of ⟨[1, 0, 0], 3, 1, 0⟩) else .notFound)
      (some (.dict [.art ⟨some "English", some "a"⟩, .art ⟨some "English", some "b"⟩,
        .art ⟨some "English", some "c"⟩]))
      [⟨0, 5, 1⟩, ⟨1, 5, 1⟩, ⟨2, 5, 1⟩, ⟨3, 5, 1⟩, ⟨4, 5, 1⟩, ⟨5, 5, 1⟩] 5 5 rfl]
    norm_num [currentDayAgg, scoreLoopLenient, avgOf, qmean, List.cons_ne_nil,
      (by decide : ¬(("a" : String) = "")), (by decide : ¬(("b" : String) = "")),
      (by decide : ¬(("c" : String) = "")), (by decide : ¬(("b" : String) = "a")),
      (by decide : ¬(("c" : String) = "a")),
      (by decide : ¬([Entry.art ⟨some "English", some "a"⟩, .art ⟨some "English", some "b"⟩,
        .art ⟨some "English", some "c"⟩] = []))]

/-- C1 amended: the historical and single-target-day paths produce numerically
identical rows for a date D only under the conditions the counterexample
forces; with identical underlying price and news data, the two rows agree
field-for-field across all 18 features provided that (a) the historical row
for D survives its NaN checks (the six droppable features are non-null at D),
(b) D is within the 3-year retention window, (c) the two preceding bars lie
within the incremental path's 5-calendar-day news lookback, (d) the stored
summary for D is the one the news processor persisted from D's raw articles
(well-formed article objects), and (e) the fresh average and standard
deviation are exactly representable in 4 decimals, so the store round-trip
loses nothing.  Without (e) the rows differ, as the counterexample shows. -/
theorem c1_amended_equiv (dow mon : ℤ → ℤ) (f : String → ℚ) (fetch : ℤ → FetchResult)
    (es : List Entry) (aggD : DayAgg) (bars : List Bar) (D : ℤ) (i : ℕ)
    (hfind : find_idx_date bars D = some i)
    (h2 : 2 ≤ i)
    (hsorted : ∀ j k, j < k → k < bars.length →
      (bars.getD j default).date < (bars.getD k default).date)
    (hwin : D - 5 ≤ (bars.getD (i - 2) default).date)
    (h3y : max_date bars - 1095 ≤ D)
    (h_r1 : (ret_1d bars).getD i none ≠ none)
    (h_m5 : (mom_5d bars).getD i none ≠ none)
    (h_ab : (abn_volume bars).getD i none ≠ none)
    (h_rl : (ret_lag_1d bars).getD i none ≠ none)
    (h_vv : (vol20_var bars).getD i none ≠ none)
    (h_rx : (rxv_hist bars).getD i none ≠ none)
    (hall : es.all Entry.isArt = true)
    (hproc : process_news_file_metrics f (.dict es) = .ok (some aggD))
    (hfD : fetch D = .found (stored_item_of aggD))
    (hrep : round4 (avgOf aggD) = avgOf aggD)
    (hrepStd : ((round4R (stdOf aggD) : ℚ) : ℝ) = stdOf aggD) :
    create_features_at dow mon fetch bars D
      = calculate_single_day_features dow mon f fetch (some (.dict es)) bars D :=
  c1_core dow mon f fetch es aggD bars D i hfind h2 hsorted hwin h3y
    h_r1 h_m5 h_ab h_rl h_vv h_rx hall hproc hfD hrep hrepStd

/-- Witness for C1: six constant bars, one positive English article for date 5,
and a store holding exactly what the news processor persisted for that day;
the fresh average 1 and standard deviation 0 are 4-decimal representable, so
the two paths agree. -/
theorem c1_amended_equiv_witness :
    find_idx_date [⟨0, 5, 1⟩, ⟨1, 5, 1⟩, ⟨2, 5, 1⟩, ⟨3, 5, 1⟩, ⟨4, 5, 1⟩, ⟨5, 5, 1⟩] 5
        = some 5 ∧
    create_features_at (fun _ => 0) (fun _ => 0)
        (fun d => if d = 5 then .found (stored_item_of ⟨[1], 1, 1, 0⟩) else .notFound)
        [⟨0, 5, 1⟩, ⟨1, 5, 1⟩, ⟨2, 5, 1⟩, ⟨3, 5, 1⟩, ⟨4, 5, 1⟩, ⟨5, 5, 1⟩] 5
      = calculate_single_day_features (fun _ => 0) (fun _ => 0) (fun _ => 1)
        (fun d => if d = 5 then .found (stored_item_of ⟨[1], 1, 1, 0⟩) else .notFound)
        (some (.dict [.art ⟨some "English", some "up"⟩]))
        [⟨0, 5, 1⟩, ⟨1, 5, 1⟩, ⟨2, 5, 1⟩, ⟨3, 5, 1⟩, ⟨4, 5, 1⟩, ⟨5, 5, 1⟩] 5 := by
  obtain ⟨h1, h2, h3, h4, h5, h6⟩ := bars6_defined
  refine ⟨rfl, ?_⟩
  exact c1_amended_equiv (fun _ => 0) (fun _ => 0) (fun _ => 1)
    (fun d => if d = 5 then .found (stored_item_of ⟨[1], 1, 1, 0⟩) else .notFound)
    [.art ⟨some "English", some "up"⟩] ⟨[1], 1, 1, 0⟩
    [⟨0, 5, 1⟩, ⟨1, 5, 1⟩, ⟨2, 5, 1⟩, ⟨3, 5, 1⟩, ⟨4, 5, 1⟩, ⟨5, 5, 1⟩] 5 5
    rfl (by norm_num)
    (by
      intro j k hjk hk
      simp only [List.length_cons, List.length_nil] at hk
      interval_cases k <;> interval_cases j <;> decide)
    (by decide) (by decide) h1 h2 h3 h4 h5 h6 (by decide)
    (by norm_num [process_news_file_metrics, histDayAgg, scoreLoopStrict,
      (by decide : ¬(("up" : String) = "")),
      (by decide : ¬([Entry.art ⟨some "English", some "up"⟩] = []))])
    rfl
    (by norm_num [round4, avgOf, qmean, round_eq, List.cons_ne_nil])
    (by norm_num [stdOf, round4R])

/-- Witness for C6: one English article scoring +1 and one Spanish article
that is filtered out; the loop returns score list [1] with one positive and no
negative, and the aggregate reports the pre-filter total of 2 articles. -/
theorem c6_aggregation_witness :
    scoreLoopStrict (fun t => if t = "a" then 1 else 0)
        [.art ⟨some "English", some "a"⟩, .art ⟨some "Spanish", some "b"⟩]
      = .ok ([1], 1, 0) ∧
    histDayAgg (fun t => if t = "a" then 1 else 0)
        [.art ⟨some "English", some "a"⟩, .art ⟨some "Spanish", some "b"⟩]
      = .ok ⟨[1], 2, 1, 0⟩ := by
  have hok : scoreLoopStrict (fun t => if t = "a" then 1 else 0)
      [.art ⟨some "English", some "a"⟩, .art ⟨some "Spanish", some "b"⟩]
      = .ok ([1], 1, 0) := by
    norm_num [scoreLoopStrict, (by decide : ¬(("a" : String) = "")),
      (by decide : ¬(("b" : String) = "")),
      (by decide : ¬((some "Spanish" : Option String) = some "English"))]
  exact ⟨hok, (c6_aggregation (fun t => if t = "a" then 1 else 0)
    [.art ⟨some "English", some "a"⟩, .art ⟨some "Spanish", some "b"⟩] [1] 1 0 hok).1⟩

/-- Witness for C9: a single English article scoring -1; the loop succeeds
and the positive plus negative counts stay within the total article count. -/
theorem c9_counts_witness :
    scoreLoopStrict (fun _ => -1) [.art ⟨some "English", some "x"⟩] = .ok ([-1], 0, 1) ∧
    (0 : ℕ) + 1 ≤ 1 := by
  have hok : scoreLoopStrict (fun _ => (-1 : ℚ)) [.art ⟨some "English", some "x"⟩]
      = .ok ([-1], 0, 1) := by
    norm_num [scoreLoopStrict, (by decide : ¬(("x" : String) = ""))]
  refine ⟨hok, ?_⟩
  exact (c9_counts (fun _ => -1) [.art ⟨some "English", some "x"⟩] [-1] 0 1 hok).2.1

end TradingCopilot
